import Mathlib

/-!
Shallow embedding of the BLDC motor-control core of this repository
(`motor.cpp` and `shared.c`): PID speed controller, Hall-effect commutation
decode, soft-ramp / e-stop timer handler, ADC sample ring buffer, current /
power monitor cycle, and the shared-value store.

Modelling conventions:
- C `double` values are modelled as rationals (`ℚ`); the claims under study
  are about branch structure, ordering and exact constants, not rounding.
- Machine-integer conversions are explicit: a C `(int)` cast of a double is
  truncation toward zero; `return -1` from a `uint16_t` function is `65535`;
  `return -1` from a `uint8_t` function is `255`.
- A division whose divisor is zero has no finite IEEE result; such a
  computation is modelled with `Option`, `none` standing for the non-finite
  outcome.
- Mutex acquisition outcomes are passed as explicit booleans; `portMAX_DELAY`
  acquisitions are modelled as succeeding.
-/

/-- PWM period setting (`#define PERIOD 100`). -/
def PERIOD : ℕ := 100

/-- ADC ring-buffer capacity (`#define MAXBUFFER 40`). -/
def MAXBUFFER : ℕ := 40

/-- PID proportional gain (`const double Kp = 0.032`). -/
def Kp : ℚ := 32 / 1000

/-- PID integral gain (`const double Ki = 0.075`). -/
def Ki : ℚ := 75 / 1000

/-- PID derivative gain (`const double Kd = 0.00005`). -/
def Kd : ℚ := 5 / 100000

/-- Low-pass filter coefficient (`static const double alpha = 0.5`). -/
def alpha : ℚ := 1 / 2

/-- Normal ramp step size: `steps = 500 / 100` (integer division) in
`setupTimers`. -/
def steps : ℚ := 500 / 100

/-- Emergency-stop ramp step size: `esteps = 1000 / 100` in `setupTimers`. -/
def esteps : ℚ := 1000 / 100

/-- C `(int)` cast of a double: truncation toward zero. -/
def truncToZero (q : ℚ) : ℤ :=
  if 0 ≤ q then ⌊q⌋ else -⌊-q⌋

/-- C `(uint16_t)` cast of a nonnegative double value (truncation; the source
only applies it to ADC-scaled values in `[0, 4095]`). -/
def toU16 (q : ℚ) : ℕ :=
  (truncToZero q).toNat

/-- `return -1;` from a `uint16_t` function: the sentinel value `65535`. -/
def PID_SENTINEL : ℕ := 65535

/-- The persistent (`static`) internals of `PIDController`: the integral
accumulator `ki_error` and `prev_error`. -/
structure PIDState where
  ki_error : ℚ
  prev_error : ℚ
deriving DecidableEq, Repr

/-- The raw (pre-clamp) control value computed on the normal path of
`PIDController`: `(int)(kp*error + ki*ki_error + kd*((error - prev_error)/dt))`
after `ki_error += error * dt`. -/
def PIDRawOutput (st : PIDState) (RPM dt soft : ℚ) : ℤ :=
  let error := soft - RPM
  let ki_error := st.ki_error + error * dt
  truncToZero (Kp * error + Ki * ki_error + Kd * ((error - st.prev_error) / dt))

/-- The normal (non-special-case) path of `PIDController` (`motor.cpp`
lines 608–620): update the integral accumulator, compute the control value,
clamp negatives to 5 and values above `PERIOD` to `PERIOD`.  Note the source
never updates `prev_error` on this path. -/
def PIDNormal (st : PIDState) (RPM dt soft : ℚ) : PIDState × ℕ :=
  let error := soft - RPM
  let ki_error := st.ki_error + error * dt
  let output := truncToZero (Kp * error + Ki * ki_error + Kd * ((error - st.prev_error) / dt))
  let output := if output < 0 then 5 else output
  let output := if output > (PERIOD : ℤ) then (PERIOD : ℤ) else output
  (⟨ki_error, st.prev_error⟩, output.toNat)

/-- `PIDController(RPM, dt)` from `motor.cpp`, with the `static` state and the
module-scoped `softSetRPM` made explicit.  Returns the new state and the
`uint16_t` return value (`return -1` is `65535`). -/
def PIDController (st : PIDState) (RPM dt soft : ℚ) : PIDState × ℕ :=
  if RPM = 0 ∧ dt = -1 then
    (⟨0, 0⟩, 0)
  else if soft = 0 then
    (⟨0, 0⟩, 0)
  else if RPM < 0 ∨ dt ≤ 0 then
    (st, PID_SENTINEL)
  else if RPM < 100 then
    (st, 16)
  else
    PIDNormal st RPM dt soft

/-- Spec-side description of the four ordered special cases of the PID
controller, written from the specification's wording: first matching case
wins; `none` means the control law (PID math) runs.  To be compared with
`PIDController`, which is translated from the source. -/
def PIDSpecialSpec (st : PIDState) (RPM dt soft : ℚ) : Option (PIDState × ℕ) :=
  if RPM = 0 ∧ dt = -1 then some (⟨0, 0⟩, 0)
  else if soft = 0 then some (⟨0, 0⟩, 0)
  else if RPM < 0 ∨ dt ≤ 0 then some (st, PID_SENTINEL)
  else if RPM < 100 then some (st, 16)
  else none

/-- The phase-drive vector selected by the `switch (hallEffectState)` in
`hallEffectDecode` (`motor.cpp` lines 478–494): the arguments that would be
passed to `updateMotor`. -/
def hallDrive (h : ℕ) : ℕ × ℕ × ℕ :=
  match h with
  | 0 => (1, 0, 0) -- Kick Start
  | 1 => (1, 0, 0) -- 001
  | 5 => (1, 0, 0) -- 101
  | 2 => (0, 1, 0) -- 010
  | 3 => (0, 1, 0) -- 011
  | _ => (0, 0, 1) -- 100, 110 and default

/-- `hallEffectDecode` from `motor.cpp`: when the motor is disabled it stops
and disables the phase driver (no drive vector, modelled `none`); when enabled
it issues exactly the drive vector given by the switch. -/
def hallEffectDecode (motorState : Bool) (h : ℕ) : Option (ℕ × ℕ × ℕ) :=
  if motorState then some (hallDrive h) else none

/-- State touched by the Timer-1A ramp handler: the motor-enable flag, the
raw target (`rpmData.values.raw`, the externally written target RPM), the
ramped setpoint `softSetRPM`, and the e-stop flag (read-only here). -/
structure RampState where
  motorState : Bool
  raw : ℚ
  soft : ℚ
  estop : Bool
deriving DecidableEq, Repr

/-- `xTimer1AHandler` from `motor.cpp` (lines 317–353).  The local `setRPM`
is read from `rpmData.values.raw` before the e-stop branch overwrites it, so
the comparisons on an e-stop tick still use the old target while the stored
target becomes 0 and the step size becomes `esteps`. -/
def xTimer1AHandler (s : RampState) : RampState :=
  let setR := s.raw
  if s.motorState = false ∧ setR ≤ 0 then s
  else
    let internalSteps := if s.estop then esteps else steps
    let raw' := if s.estop then 0 else s.raw
    if setR - internalSteps ≤ s.soft ∧ s.soft ≤ setR + internalSteps then
      ⟨if setR ≤ 0 then false else true, raw', setR, s.estop⟩
    else if s.soft > setR then
      ⟨true, raw', s.soft - internalSteps, s.estop⟩
    else
      ⟨true, raw', s.soft + internalSteps, s.estop⟩

/-- Distance between the ramped setpoint and the stored target. -/
def rampDist (s : RampState) : ℚ :=
  |s.soft - s.raw|

/-- One ADC ring-buffer slot (`adcSample` struct): raw readings of channels
0 and 4. -/
structure adcSample where
  ch0 : ℕ
  ch4 : ℕ
deriving DecidableEq, Repr

/-- The ADC ring buffer together with its head and tail indices
(`adcBuffer`, `adcHead`, `adcTail`).  `buf` is total over `ℕ`; only indices
below `MAXBUFFER` are ever read or written. -/
structure ADCRing where
  buf : ℕ → adcSample
  head : ℕ
  tail : ℕ

/-- `xADC1Sequence0` from `motor.cpp` (lines 364–381): the producer push.
Computes `nextHead`, advances the tail when the buffer is full (dropping the
oldest unread sample), writes the sample at the old head, then advances the
head.  It never blocks: it is a total function. -/
def xADC1Sequence0 (s : ADCRing) (raw : adcSample) : ADCRing :=
  let nextHead := (s.head + 1) % MAXBUFFER
  let tail' := if nextHead = s.tail then (s.tail + 1) % MAXBUFFER else s.tail
  ⟨Function.update s.buf s.head raw, nextHead, tail'⟩

/-- Number of unread samples held by the ring (distance from tail to head,
modulo the capacity). -/
def ringCount (s : ADCRing) : ℕ :=
  (MAXBUFFER + s.head - s.tail) % MAXBUFFER

/-- The `i`-th unread sample, counting from the oldest (at the tail). -/
def unreadSlot (s : ADCRing) (i : ℕ) : adcSample :=
  s.buf ((s.tail + i) % MAXBUFFER)

/-- The ring is full: the next push's `nextHead` would collide with the
tail. -/
def ringFull (s : ADCRing) : Prop :=
  (s.head + 1) % MAXBUFFER = s.tail

instance (s : ADCRing) : Decidable (ringFull s) := by
  unfold ringFull; infer_instance

/-- A `{filtered, raw}` shared-value pair (`val` struct in `shared.h`). -/
structure val where
  filtered : ℚ
  raw : ℚ
deriving DecidableEq, Repr

/-- `setterVal` from `shared.c` (lines 1046–1056), with the mutex-acquisition
outcome made an explicit boolean.  On timeout it returns the untouched pair
and the `uint8_t` error code `255` (`return -1`); otherwise `setting = true`
writes the `filtered` field, `setting = false` writes the `raw` field, and it
returns `0`. -/
def setterVal (v : val) (value : ℚ) (setting : Bool) (lockAcquired : Bool) :
    val × ℕ :=
  if lockAcquired = false then (v, 255)
  else if setting then (⟨value, v.raw⟩, 0)
  else (⟨v.filtered, value⟩, 0)

/-- `readCurrent` from `motor.cpp`: converts a raw ADC reading into a phase
current in amperes (differential sense amplifier centred at `VREF/2`,
magnitude taken). -/
def readCurrent (adc_value : ℕ) : ℚ :=
  let VREF : ℚ := 33 / 10
  let R_SENSE : ℚ := 7 / 1000
  let GAIN : ℚ := 10
  let ADC_MAX : ℚ := 4095
  let v_sox := ((adc_value : ℚ) / ADC_MAX) * VREF
  let numerator := VREF / 2 - v_sox
  let denominator := GAIN * R_SENSE
  |numerator / denominator|

/-- `estimatePower` from `motor.cpp`: `1.3 * voltage * (Ia + Ib)`. -/
def estimatePower (voltage current_a current_b : ℚ) : ℚ :=
  13 / 10 * (voltage * (current_a + current_b))

/-- The state read and written by one `powerTask` loop iteration: the local
`settlingFlag` and accumulators, the globals `estop`, `filtered_ch0/4`, and
the shared pairs `maxCurrentLimit` and `powerData`.  `CreateMotorTask` seeds
`maxCurrentLimit.raw = 833` via `setterVal(&maxCurrentLimit, 833, 0, ...)`. -/
structure PowerState where
  settlingFlag : Bool
  estop : Bool
  maxCurrentLimit : val
  powerData : val
  filtered_ch0 : ℚ
  filtered_ch4 : ℚ
  sum_ch0 : ℚ
  sum_ch4 : ℚ
  sample_count : ℕ
deriving DecidableEq, Repr

/-- The total measured current (`current_a + current_b`, in amperes) that one
`powerTask` cycle computes from its drained samples: per-channel averages,
exponential filter, `uint16_t` cast, `readCurrent`. -/
def measuredTotal (st : PowerState) (samples : List adcSample) : ℚ :=
  let sum0 := st.sum_ch0 + (samples.map (fun a => (a.ch0 : ℚ))).sum
  let sum4 := st.sum_ch4 + (samples.map (fun a => (a.ch4 : ℚ))).sum
  let n := st.sample_count + samples.length
  let avg0 := sum0 / (n : ℚ)
  let avg4 := sum4 / (n : ℚ)
  let f0 := alpha * avg0 + (1 - alpha) * st.filtered_ch0
  let f4 := alpha * avg4 + (1 - alpha) * st.filtered_ch4
  readCurrent (toU16 f0) + readCurrent (toU16 f4)

/-- One iteration of the `powerTask` loop body (`motor.cpp` lines 775–850),
with the drained ring samples passed as a list and `adcBuffer[0]` (read for
the raw instantaneous power) passed as `slot0`.  Both lock acquisitions use
`portMAX_DELAY`, so `getter` yields `errorFlag = 0` and the publishes
succeed.  The settling branch executes `continue`: the filters have already
been updated but the accumulators are not reset, no e-stop is raised and
nothing is published. -/
def powerCycle (st : PowerState) (slot0 : adcSample) (samples : List adcSample) :
    PowerState :=
  let sum0 := st.sum_ch0 + (samples.map (fun a => (a.ch0 : ℚ))).sum
  let sum4 := st.sum_ch4 + (samples.map (fun a => (a.ch4 : ℚ))).sum
  let n := st.sample_count + samples.length
  if n = 0 then
    ⟨st.settlingFlag, st.estop, st.maxCurrentLimit, st.powerData,
     st.filtered_ch0, st.filtered_ch4, sum0, sum4, n⟩
  else
    let avg0 := sum0 / (n : ℚ)
    let avg4 := sum4 / (n : ℚ)
    let raw_power := estimatePower 24 (readCurrent (slot0.ch0 % 65536))
      (readCurrent (slot0.ch4 % 65536))
    let f0 := alpha * avg0 + (1 - alpha) * st.filtered_ch0
    let f4 := alpha * avg4 + (1 - alpha) * st.filtered_ch4
    let current_a := readCurrent (toU16 f0)
    let current_b := readCurrent (toU16 f4)
    let lim := st.maxCurrentLimit.raw
    if st.settlingFlag = false ∧ (current_a + current_b) * 1000 > lim then
      ⟨st.settlingFlag, st.estop, st.maxCurrentLimit, st.powerData,
       f0, f4, sum0, sum4, n⟩
    else
      let estop' := if (current_a + current_b) * 1000 > lim then true else st.estop
      ⟨true, estop',
       ⟨(current_a + current_b) * 1000, lim⟩,
       ⟨estimatePower 24 current_a current_b, raw_power⟩,
       f0, f4, 0, 0, 0⟩

/-- FreeRTOS tick rate.  The `FreeRTOSConfig.h` of this project is not in the
repository; the standard 1 kHz rate is used.  Its value only scales
`RPMCalculate` and plays no role in the claims below. -/
def configTICK_RATE_HZ : ℕ := 1000

/-- FreeRTOS `pdMS_TO_TICKS`. -/
def pdMS_TO_TICKS (ms : ℕ) : ℕ :=
  ms * configTICK_RATE_HZ / 1000

/-- `RPMCalculate` from `motor.cpp` (lines 561–565):
`(hallEffect_Count / 12) * 60 * (pdMS_TO_TICKS(1000) / dt)`.  The source
performs the division unconditionally; when `dt = 0` the IEEE double result
is non-finite (division by zero), modelled here as `none`. -/
def RPMCalculate (hallCount : ℕ) (dt : ℕ) : Option ℚ :=
  if dt = 0 then none
  else some (((hallCount : ℚ) / 12) * 60 * ((pdMS_TO_TICKS 1000 : ℚ) / (dt : ℚ)))

/-- The duty-application step of `speedControllerTask` (`motor.cpp` lines
650–652): `uint16_t output = PIDController(...); if (output >= 0)
setDuty((uint16_t)output);`.  `output` is an unsigned 16-bit value (here `ℕ`
in `[0, 65535]`), so the C comparison `output >= 0` is the comparison
modelled here — and it is true for every value.  `some d` means `setDuty(d)`
is called; `none` would mean the duty is held. -/
def speedControllerApplyDuty (output : ℕ) : Option ℕ :=
  if 0 ≤ output then some output else none

/-! ## Helper lemmas -/

/-- The return value of the normal PID path, written as a single clamp of
`PIDRawOutput`. -/
theorem PIDNormal_snd (st : PIDState) (RPM dt soft : ℚ) :
    (PIDNormal st RPM dt soft).2 =
      (if PIDRawOutput st RPM dt soft < 0 then 5
       else if (PERIOD : ℤ) < PIDRawOutput st RPM dt soft then (PERIOD : ℤ)
       else PIDRawOutput st RPM dt soft).toNat := by
  simp only [PIDNormal, PIDRawOutput, PERIOD]
  split_ifs <;> first | rfl | omega

/-- The ramp handler never touches the e-stop flag. -/
theorem xTimer1AHandler_estop (s : RampState) :
    (xTimer1AHandler s).estop = s.estop := by
  simp only [xTimer1AHandler]
  split_ifs <;> rfl

/-- With e-stop clear, the ramp handler never touches the stored target. -/
theorem xTimer1AHandler_raw (s : RampState) (h : s.estop = false) :
    (xTimer1AHandler s).raw = s.raw := by
  simp only [xTimer1AHandler, h, Bool.false_eq_true, if_false]
  split_ifs <;> rfl

/-- With e-stop clear and outside the motor-off no-op case, the new ramped
setpoint after one tick: snap when within one step of the target, otherwise
one step toward it. -/
theorem xTimer1AHandler_soft (s : RampState) (h : s.estop = false)
    (hno : ¬(s.motorState = false ∧ s.raw ≤ 0)) :
    (xTimer1AHandler s).soft =
      (if s.raw - steps ≤ s.soft ∧ s.soft ≤ s.raw + steps then s.raw
       else if s.soft > s.raw then s.soft - steps else s.soft + steps) := by
  simp only [xTimer1AHandler, h, Bool.false_eq_true, if_false, if_neg hno]
  split_ifs <;> rfl

/-- With e-stop clear, in the snap case the handler disables the motor
exactly when the target is nonpositive. -/
theorem xTimer1AHandler_motor (s : RampState) (h : s.estop = false)
    (hno : ¬(s.motorState = false ∧ s.raw ≤ 0))
    (hband : s.raw - steps ≤ s.soft ∧ s.soft ≤ s.raw + steps) :
    (xTimer1AHandler s).motorState = (if s.raw ≤ 0 then false else true) := by
  simp only [xTimer1AHandler, h, Bool.false_eq_true, if_false, if_neg hno, if_pos hband]

/-- The no-op case: motor off and target nonpositive leaves the state
untouched. -/
theorem xTimer1AHandler_noop (s : RampState)
    (h : s.motorState = false ∧ s.raw ≤ 0) :
    xTimer1AHandler s = s := by
  simp only [xTimer1AHandler, if_pos h]

/-- With e-stop clear, one tick never increases the distance between the
ramped setpoint and the target. -/
theorem xTimer1AHandler_dist_le (s : RampState) (h : s.estop = false) :
    rampDist (xTimer1AHandler s) ≤ rampDist s := by
  have hst : (0 : ℚ) < steps := by norm_num [steps]
  by_cases hno : s.motorState = false ∧ s.raw ≤ 0
  · rw [xTimer1AHandler_noop s hno]
  · have hr := xTimer1AHandler_raw s h
    have hs := xTimer1AHandler_soft s h hno
    unfold rampDist
    rw [hr, hs]
    split_ifs with h1 h2
    · simp only [sub_self, abs_zero]
      exact abs_nonneg _
    · have hgt : steps < s.soft - s.raw := by
        rcases not_and_or.mp h1 with h' | h' <;> simp only [not_le] at h' <;> linarith
      rw [abs_of_pos (by linarith), abs_of_pos (by linarith)]
      linarith
    · have hle : s.soft ≤ s.raw := le_of_not_lt h2
      have hlt : s.soft - s.raw < -steps := by
        rcases not_and_or.mp h1 with h' | h' <;> simp only [not_le] at h' <;> linarith
      rw [abs_of_neg (by linarith), abs_of_neg (by linarith)]
      linarith

/-! ## Claim theorems -/

/-- C4: for every HallState value in {0,1,2,3,4,5,6,7}, while the motor is
enabled, one invocation of the commutation decode deterministically selects
exactly one of the three fixed phase-drive vectors: states {0,1,5} drive
phase X = `(1,0,0)`, states {2,3} drive phase Y = `(0,1,0)`, and all other
states (4, 6, 7 and the default branch) drive phase Z = `(0,0,1)`. -/
theorem C4_hall_decode_mapping :
    ∀ h : Fin 8, hallEffectDecode true h.val =
      some (if h.val = 0 ∨ h.val = 1 ∨ h.val = 5 then (1, 0, 0)
            else if h.val = 2 ∨ h.val = 3 then (0, 1, 0)
            else (0, 0, 1)) := by
  decide

/-- C10: `setterVal` with `setting = true` updates only the `filtered` field
and leaves `raw` unchanged; with `setting = false` it updates only the `raw`
field and leaves `filtered` unchanged; on lock timeout it returns the error
code 255 (`uint8_t` view of `return -1`) and leaves both fields unchanged. -/
theorem C10_setterVal_frame :
    ∀ (v : val) (x : ℚ),
      setterVal v x true true = (⟨x, v.raw⟩, 0) ∧
      setterVal v x false true = (⟨v.filtered, x⟩, 0) ∧
      setterVal v x true false = (v, 255) ∧
      setterVal v x false false = (v, 255) := by
  intro v x
  exact ⟨rfl, rfl, rfl, rfl⟩

/-- C2: the four special cases of `PIDController` are evaluated in the
claimed order before the control law: wherever the spec-side ordered case
list `PIDSpecialSpec` produces a result (reset-to-zero, commanded-off,
error sentinel, startup kick), `PIDController` returns exactly that result;
where no special case applies, `PIDController` runs the PID math
(`PIDNormal`). -/
theorem C2_pid_special_cases (st : PIDState) (RPM dt soft : ℚ) :
    (∀ r, PIDSpecialSpec st RPM dt soft = some r →
      PIDController st RPM dt soft = r) ∧
    (PIDSpecialSpec st RPM dt soft = none →
      PIDController st RPM dt soft = PIDNormal st RPM dt soft) := by
  unfold PIDSpecialSpec PIDController
  split_ifs <;> simp_all

/-- Witness for C2: the reset case (RPM = 0, dt = −1) and a normal-path
input, evaluated concretely. -/
theorem C2_pid_special_cases_witness :
    PIDController ⟨3, 4⟩ 0 (-1) 7 = (⟨0, 0⟩, 0) ∧
    PIDController ⟨0, 0⟩ 200 10 1000 = PIDNormal ⟨0, 0⟩ 200 10 1000 :=
  ⟨(C2_pid_special_cases ⟨3, 4⟩ 0 (-1) 7).1 (⟨0, 0⟩, 0)
      (by norm_num [PIDSpecialSpec]),
   (C2_pid_special_cases ⟨0, 0⟩ 200 10 1000).2
      (by norm_num [PIDSpecialSpec])⟩

/-- C3: evaluation of the code at the failing input.  With `RPM = -5`,
`dt = 10`, `softRPM = 1000`, `PIDController` returns the sentinel 65535
(`return -1` through `uint16_t`), which is indeed distinguishable from every
valid duty cycle (all ≤ PERIOD = 100); but the speed-controller task's guard
`if (output >= 0)` compares an unsigned value and is therefore always true,
so the task applies `setDuty(65535)` instead of holding the last output. -/
theorem C3_sentinel_applied_bug :
    PIDController ⟨0, 0⟩ (-5) 10 1000 = (⟨0, 0⟩, PID_SENTINEL) ∧
    PERIOD < PID_SENTINEL ∧
    speedControllerApplyDuty PID_SENTINEL = some PID_SENTINEL := by
  refine ⟨by norm_num [PIDController], by norm_num [PERIOD, PID_SENTINEL],
    by norm_num [speedControllerApplyDuty]⟩

/-- C7 counterexample: the claim says that for zero elapsed time the
computation does not divide by zero (the undefined result is avoided).  But
`RPMCalculate` performs its division unconditionally: at `dt = 0` the result
is the division-by-zero outcome (non-finite, modelled `none`), not an
avoided one. -/
theorem C7_rpm_zero_dt_counterexample : RPMCalculate 12 0 = none := by
  simp [RPMCalculate]

/-- C7 amended: `RPMCalculate` itself has no zero-elapsed-time guard — for
every transition count, `dt = 0` produces the undefined (non-finite)
division-by-zero result.  The rejection of such a cycle happens downstream:
`PIDController` with elapsed time 0 returns the error sentinel (whenever the
soft setpoint is nonzero; a zero soft setpoint is the commanded-off reset
case). -/
theorem C7_rpm_zero_dt_amended :
    (∀ c : ℕ, RPMCalculate c 0 = none) ∧
    (∀ (st : PIDState) (RPM soft : ℚ), soft ≠ 0 →
      PIDController st RPM 0 soft = (st, PID_SENTINEL)) := by
  constructor
  · intro c
    simp [RPMCalculate]
  · intro st RPM soft hsoft
    unfold PIDController
    rw [if_neg (by rintro ⟨-, h⟩; norm_num at h), if_neg hsoft, if_pos (Or.inr le_rfl)]

/-- Witness for C7: concrete evaluation at count 12, `dt = 0`. -/
theorem C7_rpm_zero_dt_witness :
    RPMCalculate 12 0 = none ∧
    PIDController ⟨0, 0⟩ 0 0 5 = (⟨0, 0⟩, PID_SENTINEL) :=
  ⟨C7_rpm_zero_dt_amended.1 12,
   C7_rpm_zero_dt_amended.2 ⟨0, 0⟩ 0 5 (by norm_num)⟩

/-- C8 counterexample: the claim says every normal-path return value lies in
`[5, PERIOD]`.  At `RPM = 100`, `dt = 1`, `softRPM = 101` with fresh internal
state the computed control value is `0.10705`, truncated to 0: the code only
clamps strictly negative values to 5, so it returns 0, outside `[5, PERIOD]`. -/
theorem C8_clamp_counterexample :
    (PIDController ⟨0, 0⟩ 100 1 101).2 = 0 ∧
    ¬ 5 ≤ (PIDController ⟨0, 0⟩ 100 1 101).2 := by
  norm_num [PIDController, PIDNormal, Kp, Ki, Kd, truncToZero, PERIOD]

/-- C8 amended: on the normal (non-special-case) path the returned duty lies
in `[0, PERIOD]`: a computed output below zero is clamped to the floor 5
(not 0), an output above the PWM period is clamped to the period, and a
computed output already in `[0, PERIOD]` — including values in `[0, 5)` — is
returned unchanged. -/
theorem C8_normal_output_amended (st : PIDState) (RPM dt soft : ℚ)
    (h1 : ¬(RPM = 0 ∧ dt = -1)) (h2 : soft ≠ 0)
    (h3 : ¬(RPM < 0 ∨ dt ≤ 0)) (h4 : ¬ RPM < 100) :
    (PIDController st RPM dt soft).2 ≤ PERIOD ∧
    (PIDRawOutput st RPM dt soft < 0 → (PIDController st RPM dt soft).2 = 5) ∧
    ((PERIOD : ℤ) < PIDRawOutput st RPM dt soft →
      (PIDController st RPM dt soft).2 = PERIOD) ∧
    (0 ≤ PIDRawOutput st RPM dt soft → PIDRawOutput st RPM dt soft ≤ (PERIOD : ℤ) →
      ((PIDController st RPM dt soft).2 : ℤ) = PIDRawOutput st RPM dt soft) := by
  have hP : PIDController st RPM dt soft = PIDNormal st RPM dt soft := by
    unfold PIDController
    rw [if_neg h1, if_neg h2, if_neg h3, if_neg h4]
  rw [hP, PIDNormal_snd]
  simp only [PERIOD]
  refine ⟨?_, ?_, ?_, ?_⟩ <;> intros <;> split_ifs <;> omega

/-- Witness for C8: concrete normal-path input RPM = 200, dt = 10,
softRPM = 1000. -/
theorem C8_normal_output_witness :
    (PIDController ⟨0, 0⟩ 200 10 1000).2 ≤ PERIOD ∧
    (PIDRawOutput ⟨0, 0⟩ 200 10 1000 < 0 → (PIDController ⟨0, 0⟩ 200 10 1000).2 = 5) ∧
    ((PERIOD : ℤ) < PIDRawOutput ⟨0, 0⟩ 200 10 1000 →
      (PIDController ⟨0, 0⟩ 200 10 1000).2 = PERIOD) ∧
    (0 ≤ PIDRawOutput ⟨0, 0⟩ 200 10 1000 → PIDRawOutput ⟨0, 0⟩ 200 10 1000 ≤ (PERIOD : ℤ) →
      ((PIDController ⟨0, 0⟩ 200 10 1000).2 : ℤ) = PIDRawOutput ⟨0, 0⟩ 200 10 1000) :=
  C8_normal_output_amended ⟨0, 0⟩ 200 10 1000 (by norm_num) (by norm_num)
    (by norm_num) (by norm_num)

/-- C6: while the e-stop flag is asserted, every ramp-timer tick (outside
the motor-off idle case) forces the stored target RPM to 0 regardless of any
externally written targetRPM, leaves the e-stop flag set, and steps the
ramped setpoint using the larger emergency step size `esteps` (snapping when
within one emergency step of the tick's target reading). -/
theorem C6_estop_tick (s : RampState) (h1 : s.estop = true)
    (h2 : s.motorState = true ∨ 0 < s.raw) :
    (xTimer1AHandler s).raw = 0 ∧
    (xTimer1AHandler s).estop = true ∧
    (xTimer1AHandler s).soft =
      (if s.raw - esteps ≤ s.soft ∧ s.soft ≤ s.raw + esteps then s.raw
       else if s.soft > s.raw then s.soft - esteps else s.soft + esteps) := by
  have hno : ¬(s.motorState = false ∧ s.raw ≤ 0) := by
    rintro ⟨hm, hr⟩
    rcases h2 with h | h
    · rw [h] at hm
      exact Bool.noConfusion hm
    · linarith
  simp only [xTimer1AHandler, h1, if_true, if_neg hno]
  split_ifs <;> exact ⟨rfl, rfl, rfl⟩

/-- Witness for C6: a mid-ramp state with e-stop asserted. -/
theorem C6_estop_tick_witness :
    (xTimer1AHandler ⟨true, 100, 50, true⟩).raw = 0 ∧
    (xTimer1AHandler ⟨true, 100, 50, true⟩).estop = true ∧
    (xTimer1AHandler ⟨true, 100, 50, true⟩).soft = 60 := by
  have h := C6_estop_tick ⟨true, 100, 50, true⟩ rfl (Or.inl rfl)
  refine ⟨h.1, h.2.1, ?_⟩
  rw [h.2.2]
  norm_num [esteps]

/-- C5: with e-stop clear, softRPM moves monotonically toward the target by
at most one step per tick and never overshoots: an idle tick is a no-op; the
target is untouched; within one step of the target the setpoint snaps
exactly to the target (disabling the motor when that target is 0); farther
away, the distance to the target shrinks by exactly one step and the
setpoint stays between its old value and the target; and over every sequence
of ticks the distance to the target never increases. -/
theorem C5_ramp_tick (s : RampState) (h : s.estop = false) :
    (s.motorState = false ∧ s.raw ≤ 0 → xTimer1AHandler s = s) ∧
    |(xTimer1AHandler s).soft - s.soft| ≤ steps ∧
    (¬(s.motorState = false ∧ s.raw ≤ 0) →
      (xTimer1AHandler s).raw = s.raw ∧
      (rampDist s ≤ steps →
        (xTimer1AHandler s).soft = s.raw ∧
        (s.raw ≤ 0 → (xTimer1AHandler s).motorState = false)) ∧
      (steps < rampDist s →
        rampDist (xTimer1AHandler s) = rampDist s - steps) ∧
      (s.soft ≤ s.raw → s.soft ≤ (xTimer1AHandler s).soft ∧ (xTimer1AHandler s).soft ≤ s.raw) ∧
      (s.raw ≤ s.soft → s.raw ≤ (xTimer1AHandler s).soft ∧ (xTimer1AHandler s).soft ≤ s.soft)) ∧
    (∀ n : ℕ, rampDist (xTimer1AHandler^[n] s) ≤ rampDist s) := by
  have hst : (0 : ℚ) < steps := by norm_num [steps]
  refine ⟨xTimer1AHandler_noop s, ?_, ?_, ?_⟩
  · by_cases hno : s.motorState = false ∧ s.raw ≤ 0
    · rw [xTimer1AHandler_noop s hno]
      simp only [sub_self, abs_zero]
      linarith
    · rw [xTimer1AHandler_soft s h hno]
      split_ifs with hband hdir
      · rw [abs_le]
        constructor <;> linarith [hband.1, hband.2]
      · rw [show s.soft - steps - s.soft = -steps by ring, abs_neg, abs_of_pos hst]
      · rw [show s.soft + steps - s.soft = steps by ring, abs_of_pos hst]
  · intro hno
    have hs := xTimer1AHandler_soft s h hno
    refine ⟨xTimer1AHandler_raw s h, ?_, ?_, ?_, ?_⟩
    · intro hband'
      have hband : s.raw - steps ≤ s.soft ∧ s.soft ≤ s.raw + steps := by
        have := abs_le.mp hband'
        constructor <;> linarith [this.1, this.2]
      refine ⟨by rw [hs, if_pos hband], ?_⟩
      intro hr0
      rw [xTimer1AHandler_motor s h hno hband, if_pos hr0]
    · intro hfar
      have hnband : ¬(s.raw - steps ≤ s.soft ∧ s.soft ≤ s.raw + steps) := by
        rintro ⟨ha, hb⟩
        have : rampDist s ≤ steps := by
          rw [rampDist, abs_le]
          constructor <;> linarith
        linarith
      unfold rampDist at *
      rw [xTimer1AHandler_raw s h, hs, if_neg hnband]
      rcases le_or_lt s.soft s.raw with hle | hlt
      · have hlt2 : s.soft - s.raw < -steps := by
          rcases not_and_or.mp hnband with h' | h' <;> simp only [not_le] at h' <;> linarith
        rw [if_neg (by linarith), abs_of_neg (by linarith), abs_of_neg (by linarith)]
        ring
      · have hgt2 : steps < s.soft - s.raw := by
          rcases not_and_or.mp hnband with h' | h' <;> simp only [not_le] at h' <;> linarith
        rw [if_pos (by linarith), abs_of_pos (by linarith), abs_of_pos (by linarith)]
        ring
    · intro hle
      rw [hs]
      split_ifs with hband hdir
      · exact ⟨by linarith [hband.1], le_refl s.raw⟩
      · constructor <;> linarith
      · have : ¬(s.raw - steps ≤ s.soft) ∨ ¬(s.soft ≤ s.raw + steps) := not_and_or.mp hband
        rcases this with h' | h' <;> simp only [not_le] at h' <;>
          constructor <;> linarith
    · intro hge
      rw [hs]
      split_ifs with hband hdir
      · exact ⟨le_refl s.raw, by linarith [hband.2]⟩
      · have : ¬(s.raw - steps ≤ s.soft) ∨ ¬(s.soft ≤ s.raw + steps) := not_and_or.mp hband
        rcases this with h' | h' <;> simp only [not_le] at h' <;>
          constructor <;> linarith
      · exact absurd ⟨by linarith, by linarith⟩ hband
  · have hestop : ∀ n : ℕ, (xTimer1AHandler^[n] s).estop = false := by
      intro n
      induction n with
      | zero => exact h
      | succ n ih =>
        rw [Function.iterate_succ_apply', xTimer1AHandler_estop]
        exact ih
    intro n
    induction n with
    | zero => exact le_refl _
    | succ n ih =>
      rw [Function.iterate_succ_apply']
      exact le_trans (xTimer1AHandler_dist_le _ (hestop n)) ih

/-- Witness for C5: one tick and three ticks from a concrete mid-ramp
state. -/
theorem C5_ramp_tick_witness :
    |(xTimer1AHandler ⟨true, 100, 50, false⟩).soft - 50| ≤ steps ∧
    rampDist (xTimer1AHandler^[3] ⟨true, 100, 50, false⟩) ≤
      rampDist ⟨true, 100, 50, false⟩ :=
  ⟨(C5_ramp_tick ⟨true, 100, 50, false⟩ rfl).2.1,
   (C5_ramp_tick ⟨true, 100, 50, false⟩ rfl).2.2.2 3⟩

/-- C1 counterexample: the claim says sustained overcurrent asserts EStop
within one monitor cycle, unconditionally.  Starting from the initial state
(settling flag clear, default limit raw = 833 mA), a cycle measuring about
47 A total — far above the limit — takes the settling `continue` branch: no
EStop is asserted, neither in that cycle nor in the next one under the same
sustained overcurrent, because an above-limit reading never sets the
settling flag. -/
theorem C1_overcurrent_counterexample :
    measuredTotal ⟨false, false, ⟨0, 833⟩, ⟨0, 0⟩, 0, 0, 0, 0, 0⟩ [⟨0, 0⟩] * 1000 > 833 ∧
    (powerCycle ⟨false, false, ⟨0, 833⟩, ⟨0, 0⟩, 0, 0, 0, 0, 0⟩ ⟨0, 0⟩ [⟨0, 0⟩]).estop = false ∧
    (powerCycle (powerCycle ⟨false, false, ⟨0, 833⟩, ⟨0, 0⟩, 0, 0, 0, 0, 0⟩ ⟨0, 0⟩ [⟨0, 0⟩])
      ⟨0, 0⟩ [⟨0, 0⟩]).estop = false := by
  norm_num [powerCycle, measuredTotal, readCurrent, toU16, truncToZero, alpha,
    estimatePower, abs_of_nonneg]

/-- C1 amended: once the settling phase has latched (the settling flag is
set, which requires a reading at or below the limit to have been observed),
any monitor cycle that drains at least one sample and measures a total
current (in mA) above the configured limit (`maxCurrentLimit.raw`, default
833) asserts EStop in that same cycle; and no path of the monitor cycle ever
clears an asserted EStop. -/
theorem C1_overcurrent_amended (st : PowerState) (slot0 : adcSample)
    (samples : List adcSample) :
    (st.settlingFlag = true → 0 < st.sample_count + samples.length →
      st.maxCurrentLimit.raw < measuredTotal st samples * 1000 →
      (powerCycle st slot0 samples).estop = true) ∧
    (st.estop = true → (powerCycle st slot0 samples).estop = true) := by
  constructor
  · intro hsf hn hover
    have hn0 : ¬ (st.sample_count + samples.length = 0) := by omega
    simp only [measuredTotal] at hover
    simp only [powerCycle]
    rw [if_neg hn0, if_neg (by rintro ⟨hf, -⟩; rw [hsf] at hf; exact Bool.noConfusion hf)]
    rw [if_pos hover]
  · intro he
    simp only [powerCycle]
    split_ifs <;> simp [he]

/-- Witness for C1: a settled state tripping on an overcurrent sample, and
an already-asserted EStop surviving a cycle. -/
theorem C1_overcurrent_witness :
    (powerCycle ⟨true, false, ⟨0, 833⟩, ⟨0, 0⟩, 0, 0, 0, 0, 0⟩ ⟨0, 0⟩ [⟨0, 0⟩]).estop = true ∧
    (powerCycle ⟨false, true, ⟨0, 833⟩, ⟨0, 0⟩, 0, 0, 0, 0, 0⟩ ⟨0, 0⟩ [⟨0, 0⟩]).estop = true :=
  ⟨(C1_overcurrent_amended ⟨true, false, ⟨0, 833⟩, ⟨0, 0⟩, 0, 0, 0, 0, 0⟩ ⟨0, 0⟩ [⟨0, 0⟩]).1
      rfl (by norm_num)
      (by norm_num [measuredTotal, readCurrent, toU16, truncToZero, alpha, abs_of_nonneg]),
   (C1_overcurrent_amended ⟨false, true, ⟨0, 833⟩, ⟨0, 0⟩, 0, 0, 0, 0, 0⟩ ⟨0, 0⟩ [⟨0, 0⟩]).2 rfl⟩

/-- C9: a push into the ADC ring buffer keeps both indices in range, always
writes the new sample at the old head (newest sample retained, and it is the
last unread slot of the new state); when the buffer is full the push drops
exactly the oldest unread sample — the tail advances by one, the count stays
at capacity − 1, and every other unread slot shifts down by one unchanged;
when not full the tail and all previously unread slots are untouched and the
count grows by one.  The producer never blocks (`xADC1Sequence0` is total),
and the consumer never observes a corrupted or out-of-range slot. -/
theorem C9_ring_push (s : ADCRing) (x : adcSample)
    (hh : s.head < MAXBUFFER) (ht : s.tail < MAXBUFFER) :
    ((xADC1Sequence0 s x).head < MAXBUFFER ∧ (xADC1Sequence0 s x).tail < MAXBUFFER) ∧
    (xADC1Sequence0 s x).buf s.head = x ∧
    0 < ringCount (xADC1Sequence0 s x) ∧
    unreadSlot (xADC1Sequence0 s x) (ringCount (xADC1Sequence0 s x) - 1) = x ∧
    (ringFull s →
      (xADC1Sequence0 s x).tail = (s.tail + 1) % MAXBUFFER ∧
      ringCount (xADC1Sequence0 s x) = MAXBUFFER - 1 ∧
      ∀ i, i + 1 < MAXBUFFER - 1 →
        unreadSlot (xADC1Sequence0 s x) i = unreadSlot s (i + 1)) ∧
    (¬ ringFull s →
      (xADC1Sequence0 s x).tail = s.tail ∧
      ringCount (xADC1Sequence0 s x) = ringCount s + 1 ∧
      ∀ i, i < ringCount s → unreadSlot (xADC1Sequence0 s x) i = unreadSlot s i) := by
  have hbuf : (xADC1Sequence0 s x).buf = Function.update s.buf s.head x := rfl
  have hhd : (xADC1Sequence0 s x).head = (s.head + 1) % 40 := rfl
  simp only [MAXBUFFER] at hh ht
  by_cases hf : ringFull s
  · unfold ringFull at hf
    simp only [MAXBUFFER] at hf
    have htl : (xADC1Sequence0 s x).tail = (s.tail + 1) % 40 := by
      show (if (s.head + 1) % 40 = s.tail then (s.tail + 1) % 40 else s.tail) = (s.tail + 1) % 40
      rw [if_pos hf]
    have hcnt : ringCount (xADC1Sequence0 s x) = 39 := by
      unfold ringCount
      rw [hhd, htl]
      simp only [MAXBUFFER]
      omega
    refine ⟨⟨?_, ?_⟩, ?_, ?_, ?_, fun _ => ⟨?_, ?_, ?_⟩, fun hnf => absurd hf ?_⟩
    · rw [hhd]; simp only [MAXBUFFER]; omega
    · rw [htl]; simp only [MAXBUFFER]; omega
    · rw [hbuf]; exact Function.update_same s.head x s.buf
    · rw [hcnt]; omega
    · unfold unreadSlot
      rw [htl, hbuf, hcnt]
      simp only [MAXBUFFER, Function.update_apply]
      split_ifs with hix
      · rfl
      · exfalso; omega
    · rw [htl]; simp only [MAXBUFFER]
    · rw [hcnt]; simp only [MAXBUFFER]
    · intro i hi
      simp only [MAXBUFFER] at hi
      unfold unreadSlot
      rw [htl, hbuf]
      simp only [MAXBUFFER, Function.update_apply]
      split_ifs with hix
      · exfalso; omega
      · congr 1; omega
    · exact hnf
  · unfold ringFull at hf
    simp only [MAXBUFFER] at hf
    have htl : (xADC1Sequence0 s x).tail = s.tail := by
      show (if (s.head + 1) % 40 = s.tail then (s.tail + 1) % 40 else s.tail) = s.tail
      rw [if_neg hf]
    have hcnt : ringCount (xADC1Sequence0 s x) = ringCount s + 1 := by
      unfold ringCount
      rw [hhd, htl]
      simp only [MAXBUFFER]
      omega
    refine ⟨⟨?_, ?_⟩, ?_, ?_, ?_, fun hfull2 => absurd ?_ hf, fun _ => ⟨htl, hcnt, ?_⟩⟩
    · rw [hhd]; simp only [MAXBUFFER]; omega
    · rw [htl]; simp only [MAXBUFFER]; omega
    · rw [hbuf]; exact Function.update_same s.head x s.buf
    · rw [hcnt]; omega
    · unfold unreadSlot ringCount
      rw [htl, hhd, hbuf]
      simp only [MAXBUFFER, Function.update_apply]
      split_ifs with hix
      · rfl
      · exfalso; omega
    · unfold ringFull at hfull2; simp only [MAXBUFFER] at hfull2; exact hfull2
    · intro i hi
      unfold ringCount at hi
      simp only [MAXBUFFER] at hi
      unfold unreadSlot
      rw [htl, hbuf]
      simp only [MAXBUFFER, Function.update_apply]
      split_ifs with hix
      · exfalso; omega
      · rfl

/-- Witness for C9: pushing one sample into the empty ring. -/
theorem C9_ring_push_witness :
    (xADC1Sequence0 ⟨fun _ => ⟨0, 0⟩, 0, 0⟩ ⟨1, 2⟩).buf 0 = ⟨1, 2⟩ ∧
    ringCount (xADC1Sequence0 ⟨fun _ => ⟨0, 0⟩, 0, 0⟩ ⟨1, 2⟩) =
      ringCount ⟨fun _ => ⟨0, 0⟩, 0, 0⟩ + 1 := by
  have h := C9_ring_push ⟨fun _ => ⟨0, 0⟩, 0, 0⟩ ⟨1, 2⟩
    (by norm_num [MAXBUFFER]) (by norm_num [MAXBUFFER])
  exact ⟨h.2.1, (h.2.2.2.2.2 (by decide)).2.1⟩
